import Mathlib

/-
Verification development for the FireBeat beatmap-to-pyrotechnics dispatch
pipeline.

Shallow embedding of the Python sources:
  FireBeat/map_reader/reader_v2.py       BeatSaberReaderV2.extract_notes
  FireBeat/map_reader/reader_v3.py       BeatSaberReaderV3.extract_notes
  FireBeat/map_reader/reader_factory.py  BeatSaberReaderFactory.create_reader_from_mapfile
  FireBeat/plc_controller.py             PLCController / PygamePLCController
  firebeat_gui/app.py                    pumpkin_press handler (arm-required policy)

Modelling conventions:
  - Python floats are modelled as rationals; the arithmetic the code performs
    on note times is exact rational arithmetic on these inputs.
  - A Python function that can raise an uncaught exception is modelled in the
    Except monad; a raised-and-caught exception is modelled by the handler's
    behaviour.
  - A dict is modelled as an association list (insertion ordered, unique keys);
    iterating a dict yields its keys, dict.get d k yields the value at k.
  - The Modbus coil image of the PLC is a total function from coil address to
    Bool.  A write whose pymodbus result reports isError() leaves the coil
    unchanged and is only logged; which addresses report errors is modelled by
    a predicate called faulty.
-/

namespace FireBeat

/-- Python exception kinds raised by the embedded code paths. -/
inductive PyErr where
  | zeroDivisionError
  | keyError
  | typeError
  | unboundLocalError
  | attributeError
  deriving Repr, DecidableEq

/-- A firing instruction as built by extract_notes:
the dict with keys "start", "end" and "pumpkin".
The source field "end" is a Lean keyword and is called endTime here. -/
structure Pulse where
  start : ℚ
  endTime : ℚ
  pumpkin : ℕ
  deriving Repr, DecidableEq

/-! Legacy (v2) reader, reader_v2.py -/

/-- A v2 note record.  The "_time" field is the only field extract_notes
reads; none models a note dict missing that key (KeyError on subscript). -/
structure NoteV2 where
  time : Option ℚ
  deriving Repr, DecidableEq

/-- One step of the v2 extraction loop body on the note with enumerate index
i: subscript note["_time"] (KeyError when the key is missing, caught by the
loop's except clause which logs and skips), then start = _time / (bpm / 60)
(ZeroDivisionError when bpm is zero, not caught). -/
def mkPulseV2 (bpm dur : ℚ) (i : ℕ) (t : ℚ) : Pulse :=
  { start := t / (bpm / 60), endTime := t / (bpm / 60) + dur, pumpkin := i % 4 }

/-- BeatSaberReaderV2.extract_notes, the enumerate loop starting at index i.
A note whose "_time" key is missing raises KeyError, which the except clause
catches and logs, skipping that record; the loop then continues.  With bpm = 0
the division raises ZeroDivisionError, which is not caught, so the whole call
fails and returns no result. -/
def extractNotesV2Aux (bpm dur : ℚ) : ℕ → List NoteV2 → Except PyErr (List Pulse)
  | _, [] => Except.ok []
  | i, n :: rest =>
    match n.time with
    | none => extractNotesV2Aux bpm dur (i + 1) rest
    | some t =>
      if bpm = 0 then Except.error PyErr.zeroDivisionError
      else
        match extractNotesV2Aux bpm dur (i + 1) rest with
        | Except.error e => Except.error e
        | Except.ok ps => Except.ok (mkPulseV2 bpm dur i t :: ps)

/-- BeatSaberReaderV2.extract_notes on the list held under the "_notes" key. -/
def extract_notes_v2 (notes : List NoteV2) (bpm dur : ℚ) : Except PyErr (List Pulse) :=
  extractNotesV2Aux bpm dur 0 notes

/-- Successful result of the v2 extraction loop, from index i: every
well-formed note contributes its pulse in input order, a note missing "_time"
contributes nothing but still consumes its enumerate index.  Used to state
what extract_notes returns when bpm is nonzero. -/
def extractNotesV2SpecAux (bpm dur : ℚ) : ℕ → List NoteV2 → List Pulse
  | _, [] => []
  | i, n :: rest =>
    match n.time with
    | none => extractNotesV2SpecAux bpm dur (i + 1) rest
    | some t => mkPulseV2 bpm dur i t :: extractNotesV2SpecAux bpm dur (i + 1) rest

/-- Successful result of the v2 extraction loop from index 0. -/
def extractNotesV2Spec (bpm dur : ℚ) (notes : List NoteV2) : List Pulse :=
  extractNotesV2SpecAux bpm dur 0 notes

/-! Modern (v3) reader, reader_v3.py -/

/-- A v3 note record; the "b" field is the beat offset, none models a record
missing that key. -/
structure NoteV3 where
  b : Option ℚ
  deriving Repr, DecidableEq

/-- A v3 map document: the two collections extract_notes looks at.
none models a missing key (dict.get default None). -/
structure MapDataV3 where
  colorNotes : Option (List NoteV3)
  basicBeatmapEvents : Option (List NoteV3)

/-- Python `a or b` on the two collection lookups: an empty list and None are
falsy, so a present nonempty colorNotes wins, otherwise basicBeatmapEvents
(which may itself be None). -/
def falsyOrNotes : Option (List NoteV3) → Option (List NoteV3) → Option (List NoteV3)
  | some (n :: ns), _ => some (n :: ns)
  | _, b => b

/-- BeatSaberReaderV3.extract_notes loop from enumerate index i.  The v3
reader has no try/except: a record missing "b" raises KeyError out of the
call, bpm = 0 raises ZeroDivisionError out of the call. -/
def extractNotesV3Aux (bpm dur : ℚ) : ℕ → List NoteV3 → Except PyErr (List Pulse)
  | _, [] => Except.ok []
  | i, n :: rest =>
    match n.b with
    | none => Except.error PyErr.keyError
    | some t =>
      if bpm = 0 then Except.error PyErr.zeroDivisionError
      else
        match extractNotesV3Aux bpm dur (i + 1) rest with
        | Except.error e => Except.error e
        | Except.ok ps => Except.ok (mkPulseV2 bpm dur i t :: ps)

/-- BeatSaberReaderV3.extract_notes: select the collection with the falsy-or
chain (enumerate(None) raises TypeError when both are falsy/absent), then run
the loop. -/
def extract_notes_v3 (m : MapDataV3) (bpm dur : ℚ) : Except PyErr (List Pulse) :=
  match falsyOrNotes m.colorNotes m.basicBeatmapEvents with
  | none => Except.error PyErr.typeError
  | some notes => extractNotesV3Aux bpm dur 0 notes

/-- Successful result of the v3 extraction loop from index i, defined when
every record carries "b" and bpm is nonzero. -/
def extractNotesV3SpecAux (bpm dur : ℚ) : ℕ → List NoteV3 → List Pulse
  | _, [] => []
  | i, n :: rest =>
    match n.b with
    | none => extractNotesV3SpecAux bpm dur (i + 1) rest
    | some t => mkPulseV2 bpm dur i t :: extractNotesV3SpecAux bpm dur (i + 1) rest

/-! Reader factory, reader_factory.py -/

/-- A JSON value found under a version key: either a string or (malformed
marker) a number. -/
inductive VersionField where
  | str (s : String)
  | int (n : Int)
  deriving Repr, DecidableEq

/-- Python str.startswith: the pattern's characters are a prefix of the
string's characters. -/
def pyStartswith (s p : String) : Bool := List.isPrefixOf p.data s.data

/-- Python truthiness of a version field value: the empty string and 0 are
falsy. -/
def pyFalsy : VersionField → Bool
  | VersionField.str s => s = ""
  | VersionField.int n => n = 0

/-- Python `a or b` over the two version lookups (each None when the key is
missing). -/
def pyOr (a b : Option VersionField) : Option VersionField :=
  match a with
  | some v => if pyFalsy v then b else some v
  | none => b

/-- The parsed .dat document as far as the factory reads it: its "_version"
and "version" keys. -/
structure MapDoc where
  underscoreVersion : Option VersionField
  bareVersion : Option VersionField
  deriving Repr, DecidableEq

/-- The input handed to the factory: either bytes that json.load rejects, or
a parsed document. -/
inductive DatFile where
  | invalidJson
  | parsed (doc : MapDoc)
  deriving Repr, DecidableEq

/-- The reader object the factory constructs, bound to the parsed document. -/
inductive Reader where
  | v2 (doc : MapDoc)
  | v3 (doc : MapDoc)
  deriving Repr, DecidableEq

/-- BeatSaberReaderFactory.create_reader_from_mapfile.

On invalid JSON, json.load raises inside the try; the except clause logs
"defaulting to 2.0.0" and sets version, but the local `data` was never bound,
so constructing BeatSaberReaderV2(data) afterwards raises UnboundLocalError.

On a parsed document, version := data.get("_version") or data.get("version");
a missing (None) result raises inside the try and is caught, defaulting the
version string to "2.0.0".  The startswith dispatch runs outside the
try/except: a non-string version value raises AttributeError there. -/
def create_reader_from_mapfile : DatFile → Except PyErr Reader
  | DatFile.invalidJson => Except.error PyErr.unboundLocalError
  | DatFile.parsed doc =>
    let version := pyOr doc.underscoreVersion doc.bareVersion
    let v := match version with
      | none => VersionField.str ("2.0.0")
      | some w => w
    match v with
    | VersionField.int _ => Except.error PyErr.attributeError
    | VersionField.str s =>
      Except.ok (if pyStartswith s ("3") then Reader.v3 doc else Reader.v2 doc)

/-! Hardware PLC controller, plc_controller.py -/

/-- The Modbus coil image of the PLC. -/
structure PlcState where
  coils : ℕ → Bool

/-- PLCController.set_coil: client.write_coil(coil, state); when the result
reports isError() the failure is logged and swallowed (the coil keeps its old
value), otherwise the coil takes the written value.  The call never raises. -/
def set_coil (faulty : ℕ → Bool) (s : PlcState) (coil : ℕ) (b : Bool) : PlcState :=
  if faulty coil then s
  else { coils := fun c => if c = coil then b else s.coils c }

/-- PLCController.igniter_disarm: set_coil(IGNITER_SHUTOFF, True). -/
def igniter_disarm (shutoff : ℕ) (faulty : ℕ → Bool) (s : PlcState) : PlcState :=
  set_coil faulty s shutoff true

/-- PLCController.igniter_arm: set_coil(IGNITER_SHUTOFF, False). -/
def igniter_arm (shutoff : ℕ) (faulty : ℕ → Bool) (s : PlcState) : PlcState :=
  set_coil faulty s shutoff false

/-- Python dict.get on the PUMPKIN_COILS association list. -/
def dictGet (d : List (ℕ × ℕ)) (k : ℕ) : Option ℕ :=
  (d.find? (fun p => p.1 = k)).map Prod.snd

/-- PLCController.__exit__ coil sweep: `for coil in PUMPKIN_COILS:
self.set_coil(coil, False)`.  Iterating the dict yields its KEYS (the logical
pumpkin indices), so the values written are the keys of the map, in insertion
order.  The subsequent self.close() only drops the TCP connection and is not
modelled. -/
def plcExit (pumpkinCoils : List (ℕ × ℕ)) (faulty : ℕ → Bool) (s : PlcState) : PlcState :=
  (pumpkinCoils.map Prod.fst).foldl (fun st k => set_coil faulty st k false) s

/-- One dispatch edge: the scheduled clock time at which a set_coil call is
due, the coil written, and the value written. -/
structure Edge where
  time : ℚ
  coil : ℕ
  state : Bool
  deriving Repr, DecidableEq

/-- PLCController.run_schedule: the sequence of set_coil calls the hardware
dispatcher performs, in the order it performs them, each tagged with the
clock time the code intends for it (start_time + pulse start / end).  The
loop handles one pulse completely (sleep, coil on, sleep, coil off) before it
looks at the next pulse; a pulse whose pumpkin index has no entry in
PUMPKIN_COILS is skipped with a warning. -/
def run_schedule_ops (pc : List (ℕ × ℕ)) (startTime : ℚ) : List Pulse → List Edge
  | [] => []
  | p :: rest =>
    match dictGet pc p.pumpkin with
    | none => run_schedule_ops pc startTime rest
    | some coil =>
      { time := startTime + p.start, coil := coil, state := true } ::
      { time := startTime + p.endTime, coil := coil, state := false } ::
      run_schedule_ops pc startTime rest

/-! Simulated PLC controller (PygamePLCController), plc_controller.py -/

/-- PygamePLCController.run_schedule event construction: for each pulse with
a mapped coil, append (start_time + start, coil, True) and
(start_time + end, coil, False); unmapped pulses are skipped with a
warning. -/
def pygame_build_events (pc : List (ℕ × ℕ)) (startTime : ℚ) : List Pulse → List Edge
  | [] => []
  | p :: rest =>
    match dictGet pc p.pumpkin with
    | none => pygame_build_events pc startTime rest
    | some coil =>
      { time := startTime + p.start, coil := coil, state := true } ::
      { time := startTime + p.endTime, coil := coil, state := false } ::
      pygame_build_events pc startTime rest

/-- Comparison key of events.sort(key=lambda e: e[0]). -/
def edgeLe (a b : Edge) : Prop := a.time ≤ b.time

instance : DecidableRel edgeLe := fun a b => inferInstanceAs (Decidable (a.time ≤ b.time))

instance : IsTotal Edge edgeLe := ⟨fun a b => le_total a.time b.time⟩

instance : IsTrans Edge edgeLe := ⟨fun _ _ _ h1 h2 => le_trans h1 h2⟩

/-- PygamePLCController.run_schedule applied-event sequence: the built events
sorted stably by time (Python list.sort is a stable sort; insertion sort is
the stable sort by the same key), then applied one by one once the stream
clock passes each event time. -/
def pygame_run_schedule_ops (pc : List (ℕ × ℕ)) (startTime : ℚ) (sched : List Pulse) :
    List Edge :=
  List.insertionSort edgeLe (pygame_build_events pc startTime sched)

/-- PygamePLCController.set_coil: only coils present in the coil_states dict
(built from the PUMPKIN_COILS values) are updated; an unknown coil is logged
and ignored. -/
def pygameSetCoil (known : List ℕ) (st : ℕ → Bool) (coil : ℕ) (b : Bool) : ℕ → Bool :=
  if coil ∈ known then (fun c => if c = coil then b else st c) else st

/-- Simulated coil image at stream-clock time t: the applied events are
exactly those whose scheduled time has passed; since the applied sequence is
sorted by time these form a prefix of it, applied in sequence order to the
all-off initial coil_states. -/
def pygameStateAt (known : List ℕ) (pc : List (ℕ × ℕ)) (startTime : ℚ) (sched : List Pulse)
    (t : ℚ) : ℕ → Bool :=
  ((pygame_run_schedule_ops pc startTime sched).filter (fun e => e.time ≤ t)).foldl
    (fun st e => pygameSetCoil known st e.coil e.state) (fun _ => false)

/-! Control-panel interlock, firebeat_gui/app.py -/

/-- Panel state shared by the socket handlers: STATE["igniter_armed"],
STATE["pumpkins"], plus the coil image of the active controller. -/
structure AppState where
  igniter_armed : Bool
  pumpkins : List Bool
  plc : PlcState

/-- Reply a pumpkin_press emits. -/
inductive PressReply where
  | invalidIndex
  | igniterNotArmed
  | pumpkinOn (idx : ℕ)
  | failedOn (idx : ℕ)
  deriving Repr, DecidableEq

/-- app.py _pumpkin_on: look the channel up in PUMPKIN_COIL_LIST; with a
mapped coil, set_coil(coil, True) and record the panel state, returning True;
with no mapped coil, warn and return False.  The _start_hold_timeout timer
thread only acts later in real time and is not part of this state change. -/
def pumpkin_on (coilList : List (Option ℕ)) (faulty : ℕ → Bool) (idx : ℕ) (st : AppState) :
    AppState × Bool :=
  match coilList.getD idx none with
  | some coil =>
    ({ st with
        plc := set_coil faulty st.plc coil true,
        pumpkins := st.pumpkins.set idx true }, true)
  | none => (st, false)

/-- app.py pumpkin_press handler: reject an out-of-range index; with
ARM_REQUIRED set and the igniter not armed, emit the "Igniter not armed"
error and return without touching any state; otherwise run _pumpkin_on. -/
def pumpkin_press (armRequired : Bool) (coilList : List (Option ℕ)) (faulty : ℕ → Bool)
    (idx : ℤ) (st : AppState) : AppState × PressReply :=
  if idx < 0 ∨ 4 ≤ idx then (st, PressReply.invalidIndex)
  else if armRequired && !st.igniter_armed then (st, PressReply.igniterNotArmed)
  else
    match pumpkin_on coilList faulty idx.toNat st with
    | (st2, true) => (st2, PressReply.pumpkinOn idx.toNat)
    | (st2, false) => (st2, PressReply.failedOn idx.toNat)

end FireBeat

namespace FireBeat

/-! Helper lemmas about the v2 extraction loop -/

/-- With nonzero bpm the v2 loop never raises: it returns exactly the pulses
of the well-formed notes, in input order. -/
theorem extractNotesV2Aux_eq_spec (bpm dur : ℚ) (hb : bpm ≠ 0) (notes : List NoteV2) :
    ∀ i, extractNotesV2Aux bpm dur i notes = Except.ok (extractNotesV2SpecAux bpm dur i notes) := by
  induction notes with
  | nil => intro i; rfl
  | cons n rest ih =>
    intro i
    cases hn : n.time with
    | none => simp [extractNotesV2Aux, extractNotesV2SpecAux, hn, ih]
    | some t => simp [extractNotesV2Aux, extractNotesV2SpecAux, hn, hb, ih]

/-- Every well-formed note of the input contributes its pulse to the loop
result, whatever malformed records surround it. -/
theorem extractNotesV2SpecAux_mem (bpm dur : ℚ) (notes : List NoteV2) :
    ∀ (j i : ℕ) (t : ℚ), notes[i]? = some ⟨some t⟩ →
      mkPulseV2 bpm dur (j + i) t ∈ extractNotesV2SpecAux bpm dur j notes := by
  induction notes with
  | nil => intro j i t h; simp at h
  | cons n rest ih =>
    intro j i t h
    cases i with
    | zero =>
      rw [List.getElem?_cons_zero, Option.some_inj] at h
      subst h
      simp [extractNotesV2SpecAux]
    | succ k =>
      rw [List.getElem?_cons_succ] at h
      have hrec := ih (j + 1) k t h
      have e : j + (k + 1) = (j + 1) + k := by omega
      rw [e]
      cases hn : n.time with
      | none => simpa [extractNotesV2SpecAux, hn] using hrec
      | some t2 => simp [extractNotesV2SpecAux, hn, hrec]

/-- On a list whose records all carry "_time", the loop result keeps input
positions: the pulse at position i comes from the note at position i. -/
theorem extractNotesV2SpecAux_getElem_wf (bpm dur : ℚ) (notes : List NoteV2)
    (hwf : ∀ n ∈ notes, n.time.isSome) :
    ∀ (j i : ℕ) (t : ℚ), notes[i]? = some ⟨some t⟩ →
      (extractNotesV2SpecAux bpm dur j notes)[i]? = some (mkPulseV2 bpm dur (j + i) t) := by
  induction notes with
  | nil => intro j i t h; simp at h
  | cons n rest ih =>
    intro j i t h
    have hwfRest : ∀ m ∈ rest, m.time.isSome := fun m hm => hwf m (List.mem_cons_of_mem n hm)
    cases i with
    | zero =>
      rw [List.getElem?_cons_zero, Option.some_inj] at h
      subst h
      simp [extractNotesV2SpecAux]
    | succ k =>
      rw [List.getElem?_cons_succ] at h
      have hrec := ih hwfRest (j + 1) k t h
      have hn : n.time.isSome := hwf n (List.mem_cons_self n rest)
      obtain ⟨tn, htn⟩ := Option.isSome_iff_exists.mp hn
      have e : j + (k + 1) = (j + 1) + k := by omega
      rw [e]
      simpa [extractNotesV2SpecAux, htn] using hrec

/-- The start times of the loop result are the "_time" values of the
well-formed notes, each divided by bpm / 60, in input order. -/
theorem extractNotesV2SpecAux_map_start (bpm dur : ℚ) (notes : List NoteV2) :
    ∀ j, (extractNotesV2SpecAux bpm dur j notes).map Pulse.start =
      (notes.filterMap NoteV2.time).map (fun t => t / (bpm / 60)) := by
  induction notes with
  | nil => intro j; rfl
  | cons n rest ih =>
    intro j
    cases hn : n.time with
    | none => simp [extractNotesV2SpecAux, List.filterMap_cons, hn, ih]
    | some t => simp [extractNotesV2SpecAux, List.filterMap_cons, hn, ih, mkPulseV2]

/-! Helper lemmas about the v3 extraction loop -/

/-- With nonzero bpm and every record carrying "b", the v3 loop never raises
and returns the pulses in input order. -/
theorem extractNotesV3Aux_eq_spec (bpm dur : ℚ) (hb : bpm ≠ 0) (notes : List NoteV3)
    (hwf : ∀ n ∈ notes, n.b.isSome) :
    ∀ i, extractNotesV3Aux bpm dur i notes = Except.ok (extractNotesV3SpecAux bpm dur i notes) := by
  induction notes with
  | nil => intro i; rfl
  | cons n rest ih =>
    intro i
    have hwfRest : ∀ m ∈ rest, m.b.isSome := fun m hm => hwf m (List.mem_cons_of_mem n hm)
    obtain ⟨tn, htn⟩ := Option.isSome_iff_exists.mp (hwf n (List.mem_cons_self n rest))
    simp [extractNotesV3Aux, extractNotesV3SpecAux, htn, hb, ih hwfRest]

/-- Start times of the v3 loop result, in input order. -/
theorem extractNotesV3SpecAux_map_start (bpm dur : ℚ) (notes : List NoteV3) :
    ∀ j, (extractNotesV3SpecAux bpm dur j notes).map Pulse.start =
      (notes.filterMap NoteV3.b).map (fun t => t / (bpm / 60)) := by
  induction notes with
  | nil => intro j; rfl
  | cons n rest ih =>
    intro j
    cases hn : n.b with
    | none => simp [extractNotesV3SpecAux, List.filterMap_cons, hn, ih]
    | some t => simp [extractNotesV3SpecAux, List.filterMap_cons, hn, ih, mkPulseV2]

/-- Division by a positive constant preserves a non-decreasing chain. -/
theorem chain_div_of_chain (c : ℚ) (hc : 0 < c) (l : List ℚ)
    (hl : List.Chain' (· ≤ ·) l) :
    List.Chain' (· ≤ ·) (l.map (fun t => t / c)) := by
  rw [List.chain'_map]
  exact hl.imp (fun a b hab => (div_le_div_iff_of_pos_right hc).mpr hab)

end FireBeat

namespace FireBeat

/-! Helper lemmas about the PLC exit sweep -/

/-- The exit sweep only writes False, so a coil already reading Off stays
Off through the rest of the sweep. -/
theorem foldl_set_coil_false_preserve (faulty : ℕ → Bool) (k : ℕ) (keys : List ℕ) :
    ∀ (s : PlcState), s.coils k = false →
      ((keys.foldl (fun st x => set_coil faulty st x false) s).coils k = false) := by
  induction keys with
  | nil => intro s h; exact h
  | cons x rest ih =>
    intro s h
    simp only [List.foldl_cons]
    apply ih
    unfold set_coil
    by_cases hf : faulty x
    · simp [hf, h]
    · by_cases hk : k = x <;> simp [hf, hk, h]

/-- A key appearing in the sweep list whose write is not rejected reads Off
after the sweep, whatever errors other writes report. -/
theorem foldl_set_coil_false_mem (faulty : ℕ → Bool) (k : ℕ) (keys : List ℕ) :
    ∀ (s : PlcState), k ∈ keys → faulty k = false →
      ((keys.foldl (fun st x => set_coil faulty st x false) s).coils k = false) := by
  induction keys with
  | nil => intro s h; simp at h
  | cons x rest ih =>
    intro s hmem hok
    simp only [List.foldl_cons]
    rcases List.mem_cons.mp hmem with h | h
    · subst h
      apply foldl_set_coil_false_preserve
      simp [set_coil, hok]
    · exact ih _ h hok

end FireBeat

namespace FireBeat

/-! Claim C1 -/

/-- C1 counterexample: with channel map {0 maps to coil 8, ..., 3 maps to
coil 11} (the map is config-driven), shutoff coil 4, no write errors, and an
initial state in which every mapped valve coil is energized and the igniter
is armed (shutoff coil low), the exit sweep leaves mapped coil 8 still On and
the shutoff coil still low (still Armed): it writes the map's KEYS 0..3, not
the mapped coil addresses, and never touches the igniter shutoff coil, so
the claimed "every mapped channel Off and interlock Disarmed" fails. -/
theorem plcExit_keeps_mapped_coil_on_and_stays_armed :
    ((plcExit [(0, 8), (1, 9), (2, 10), (3, 11)] (fun _ => false)
        ⟨fun c => if c = 4 then false else true⟩).coils 8 = true) ∧
    ((plcExit [(0, 8), (1, 9), (2, 10), (3, 11)] (fun _ => false)
        ⟨fun c => if c = 4 then false else true⟩).coils 4 = false) := by
  constructor <;> norm_num [plcExit, set_coil]

/-- C1 (amended): the __exit__ sweep writes Off to every KEY of the channel
map (the logical pumpkin indices); a write whose Modbus result reports an
error is logged and swallowed, so an error on any other key's write never
prevents a given key from being secured.  The sweep does not disarm the
interlock and does not write the mapped coil values. -/
theorem plcExit_secures_every_map_key (pc : List (ℕ × ℕ)) (faulty : ℕ → Bool)
    (s : PlcState) (k : ℕ) (hk : k ∈ pc.map Prod.fst) (hok : faulty k = false) :
    (plcExit pc faulty s).coils k = false :=
  foldl_set_coil_false_mem faulty k (pc.map Prod.fst) s hk hok

/-- C1 witness: the amended theorem applied at the map {0↦8, 1↦9}, with the
write to key 1 failing, an all-on initial state, and channel key 0. -/
theorem plcExit_secures_every_map_key_witness :
    (0 : ℕ) ∈ ([(0, 8), (1, 9)] : List (ℕ × ℕ)).map Prod.fst ∧
    (fun x : ℕ => decide (x = 1)) 0 = false ∧
    (plcExit [(0, 8), (1, 9)] (fun x => decide (x = 1)) ⟨fun _ => true⟩).coils 0 = false :=
  ⟨by simp, by simp,
    plcExit_secures_every_map_key [(0, 8), (1, 9)] (fun x => decide (x = 1))
      ⟨fun _ => true⟩ 0 (by simp) (by simp)⟩

/-! Claim C2 -/

/-- C2: with the arm-required policy active (ARM_REQUIRED true) and the
interlock Disarmed (igniter_armed false), pressing any valid channel index
is rejected with the "Igniter not armed" error and changes nothing: the
panel channel states and the coil image are exactly as before, so the
channel stays Off. -/
theorem pumpkin_press_rejected_while_disarmed (coilList : List (Option ℕ))
    (faulty : ℕ → Bool) (idx : ℤ) (st : AppState)
    (hdis : st.igniter_armed = false) (h0 : 0 ≤ idx) (h4 : idx < 4) :
    pumpkin_press true coilList faulty idx st = (st, PressReply.igniterNotArmed) ∧
    (pumpkin_press true coilList faulty idx st).1.pumpkins = st.pumpkins ∧
    (pumpkin_press true coilList faulty idx st).1.plc = st.plc := by
  have hrange : ¬ (idx < 0 ∨ 4 ≤ idx) := by omega
  have main : pumpkin_press true coilList faulty idx st = (st, PressReply.igniterNotArmed) := by
    unfold pumpkin_press
    rw [if_neg hrange]
    simp [hdis]
  exact ⟨main, by rw [main], by rw [main]⟩

/-- C2 witness: the theorem applied at channel index 2, the identity coil
list, no write faults, and the all-off disarmed panel state. -/
theorem pumpkin_press_rejected_while_disarmed_witness :
    (AppState.mk false [false, false, false, false] ⟨fun _ => false⟩).igniter_armed = false ∧
    (0 : ℤ) ≤ 2 ∧ (2 : ℤ) < 4 ∧
    pumpkin_press true [some 0, some 1, some 2, some 3] (fun _ => false) 2
        (AppState.mk false [false, false, false, false] ⟨fun _ => false⟩) =
      (AppState.mk false [false, false, false, false] ⟨fun _ => false⟩,
        PressReply.igniterNotArmed) :=
  ⟨rfl, by norm_num, by norm_num,
    (pumpkin_press_rejected_while_disarmed [some 0, some 1, some 2, some 3] (fun _ => false) 2
      (AppState.mk false [false, false, false, false] ⟨fun _ => false⟩) rfl (by norm_num)
      (by norm_num)).1⟩

/-! Claim C10 -/

/-- C10: a pulse whose pumpkin index has no entry in PUMPKIN_COILS is
silently skipped by both dispatchers: no on or off command is emitted for
it, and the commands for every other pulse are exactly those of the schedule
without it; the run never aborts on an unmapped index. -/
theorem unmapped_pulse_silently_skipped (pc : List (ℕ × ℕ)) (t0 : ℚ) (p : Pulse)
    (s t : List Pulse) (hp : dictGet pc p.pumpkin = none) :
    run_schedule_ops pc t0 (s ++ p :: t) = run_schedule_ops pc t0 (s ++ t) ∧
    pygame_build_events pc t0 (s ++ p :: t) = pygame_build_events pc t0 (s ++ t) ∧
    pygame_run_schedule_ops pc t0 (s ++ p :: t) = pygame_run_schedule_ops pc t0 (s ++ t) := by
  have h1 : run_schedule_ops pc t0 (s ++ p :: t) = run_schedule_ops pc t0 (s ++ t) := by
    induction s with
    | nil => simp [run_schedule_ops, hp]
    | cons q rest ih =>
      simp only [List.cons_append, run_schedule_ops]
      cases dictGet pc q.pumpkin <;> simp [ih]
  have h2 : pygame_build_events pc t0 (s ++ p :: t) = pygame_build_events pc t0 (s ++ t) := by
    clear h1
    induction s with
    | nil => simp [pygame_build_events, hp]
    | cons q rest ih =>
      simp only [List.cons_append, pygame_build_events]
      cases dictGet pc q.pumpkin <;> simp [ih]
  exact ⟨h1, h2, by rw [pygame_run_schedule_ops, pygame_run_schedule_ops, h2]⟩

/-- C10 witness: the theorem applied at map {0↦5}, a pulse on unmapped
pumpkin 1 between two mapped pulses. -/
theorem unmapped_pulse_silently_skipped_witness :
    dictGet [(0, 5)] (Pulse.mk 1 2 1).pumpkin = none ∧
    run_schedule_ops [(0, 5)] 0 ([⟨0, 1, 0⟩] ++ Pulse.mk 1 2 1 :: [⟨2, 3, 0⟩]) =
      run_schedule_ops [(0, 5)] 0 ([⟨0, 1, 0⟩] ++ [⟨2, 3, 0⟩]) :=
  ⟨by simp [dictGet, List.find?], (unmapped_pulse_silently_skipped [(0, 5)] 0 (Pulse.mk 1 2 1)
    [⟨0, 1, 0⟩] [⟨2, 3, 0⟩] (by simp [dictGet, List.find?])).1⟩

end FireBeat

namespace FireBeat

/-! Claim C3 -/

/-- C3: for bpm > 0 and beat offsets 0 ≤ b ≤ b2, both reader variants
convert a note's beat offset to seconds as exactly b / (bpm / 60), and for
fixed bpm the resulting start time is monotonically non-decreasing in the
beat offset. -/
theorem extract_notes_beat_seconds_conversion (bpm b b2 dur : ℚ)
    (hb : 0 < bpm) (_hb0 : 0 ≤ b) (hle : b ≤ b2) :
    extract_notes_v2 [⟨some b⟩] bpm dur =
        Except.ok [⟨b / (bpm / 60), b / (bpm / 60) + dur, 0⟩] ∧
    extract_notes_v3 ⟨some [⟨some b⟩], none⟩ bpm dur =
        Except.ok [⟨b / (bpm / 60), b / (bpm / 60) + dur, 0⟩] ∧
    b / (bpm / 60) ≤ b2 / (bpm / 60) := by
  have hne : bpm ≠ 0 := hb.ne'
  refine ⟨?_, ?_, ?_⟩
  · simp [extract_notes_v2, extractNotesV2Aux, mkPulseV2, hne]
  · simp [extract_notes_v3, falsyOrNotes, extractNotesV3Aux, mkPulseV2, hne]
  · have hc : 0 < bpm / 60 := by positivity
    exact (div_le_div_iff_of_pos_right hc).mpr hle

/-- C3 witness: the theorem applied at bpm = 120, offsets 1 and 2, note
duration 1. -/
theorem extract_notes_beat_seconds_conversion_witness :
    (0 : ℚ) < 120 ∧ (0 : ℚ) ≤ 1 ∧ (1 : ℚ) ≤ 2 ∧
    (extract_notes_v2 [⟨some 1⟩] 120 1 =
        Except.ok [⟨1 / (120 / 60), 1 / (120 / 60) + 1, 0⟩] ∧
      extract_notes_v3 ⟨some [⟨some 1⟩], none⟩ 120 1 =
        Except.ok [⟨1 / (120 / 60), 1 / (120 / 60) + 1, 0⟩] ∧
      (1 : ℚ) / (120 / 60) ≤ 2 / (120 / 60)) :=
  ⟨by norm_num, by norm_num, by norm_num,
    extract_notes_beat_seconds_conversion 120 1 2 1 (by norm_num) (by norm_num) (by norm_num)⟩

/-! Claim C4 -/

/-- C4: the factory's version dispatch on the good cases, and its two crash
modes on malformed input.  A version string starting "3" selects the v3
reader; "2.0.0", the empty string and a missing marker select the v2 reader.
But input that json.load rejects raises UnboundLocalError (the except clause
logs "defaulting to 2.0.0", yet the local data it then passes to the reader
constructor was never bound), and a non-string version value raises
AttributeError at the startswith dispatch, which sits outside the
try/except — so selection does crash on malformed input, against the claim. -/
theorem create_reader_dispatch_and_crash_modes :
    create_reader_from_mapfile DatFile.invalidJson = Except.error PyErr.unboundLocalError ∧
    create_reader_from_mapfile (DatFile.parsed ⟨some (VersionField.int 3), none⟩) =
      Except.error PyErr.attributeError ∧
    create_reader_from_mapfile (DatFile.parsed ⟨some (VersionField.str ("3.2.0")), none⟩) =
      Except.ok (Reader.v3 ⟨some (VersionField.str ("3.2.0")), none⟩) ∧
    create_reader_from_mapfile (DatFile.parsed ⟨some (VersionField.str ("2.0.0")), none⟩) =
      Except.ok (Reader.v2 ⟨some (VersionField.str ("2.0.0")), none⟩) ∧
    create_reader_from_mapfile (DatFile.parsed ⟨some (VersionField.str ("")), none⟩) =
      Except.ok (Reader.v2 ⟨some (VersionField.str ("")), none⟩) ∧
    create_reader_from_mapfile (DatFile.parsed ⟨none, none⟩) =
      Except.ok (Reader.v2 ⟨none, none⟩) := by
  exact ⟨rfl, rfl, rfl, rfl, rfl, rfl⟩

/-! Claim C5 -/

/-- C5 counterexample: at bpm = -120 (so bpm ≤ 0) the v2 extraction is not
rejected at all: it returns a pulse with negative start time, against the
claim that every bpm ≤ 0 is rejected and produces no pulses. -/
theorem extract_notes_negative_bpm_yields_pulses :
    extract_notes_v2 [⟨some 1⟩] (-120) 1 = Except.ok [⟨-(1 / 2), 1 / 2, 0⟩] := by
  norm_num [extract_notes_v2, extractNotesV2Aux, mkPulseV2]

/-- C5 (amended): only bpm = 0 is rejected, and only by the uncaught
ZeroDivisionError of the per-note division, which fires once a well-formed
note is processed; the failed call produces no pulses.  A negative bpm is
not rejected (see the counterexample). -/
theorem extract_notes_zero_bpm_zero_division (b dur : ℚ) (rest : List NoteV2)
    (rest3 : List NoteV3) :
    extract_notes_v2 (⟨some b⟩ :: rest) 0 dur = Except.error PyErr.zeroDivisionError ∧
    extract_notes_v3 ⟨some (⟨some b⟩ :: rest3), none⟩ 0 dur =
      Except.error PyErr.zeroDivisionError := by
  constructor
  · simp [extract_notes_v2, extractNotesV2Aux]
  · simp [extract_notes_v3, falsyOrNotes, extractNotesV3Aux]

end FireBeat

namespace FireBeat

/-! Claim C6 -/

/-- C6: the channel written into the pulse of the note at index i is
i mod 4 (the code's channel count is fixed at 4), so the round-robin repeats
exactly every 4 notes; and the legacy chart with beat offsets 0,1,2,3 at
bpm 120 yields start seconds 0, 1/2, 1, 3/2 on channels 0,1,2,3. -/
theorem modulus_channel_assignment (bpm dur t : ℚ) (notes : List NoteV2) (i : ℕ)
    (hb : bpm ≠ 0) (hwf : ∀ n ∈ notes, n.time.isSome)
    (hi : notes[i]? = some ⟨some t⟩) :
    extract_notes_v2 notes bpm dur = Except.ok (extractNotesV2Spec bpm dur notes) ∧
    (extractNotesV2Spec bpm dur notes)[i]? = some (mkPulseV2 bpm dur i t) ∧
    (mkPulseV2 bpm dur i t).pumpkin = i % 4 ∧
    (mkPulseV2 bpm dur (i + 4) t).pumpkin = i % 4 ∧
    extract_notes_v2 [⟨some 0⟩, ⟨some 1⟩, ⟨some 2⟩, ⟨some 3⟩] 120 dur =
      Except.ok [⟨0, dur, 0⟩, ⟨1 / 2, 1 / 2 + dur, 1⟩, ⟨1, 1 + dur, 2⟩,
        ⟨3 / 2, 3 / 2 + dur, 3⟩] := by
  refine ⟨extractNotesV2Aux_eq_spec bpm dur hb notes 0, ?_, rfl, ?_, ?_⟩
  · simpa using extractNotesV2SpecAux_getElem_wf bpm dur notes hwf 0 i t hi
  · simp [mkPulseV2, Nat.add_mod_right]
  · norm_num [extract_notes_v2, extractNotesV2Aux, mkPulseV2]

/-- C6 witness: the theorem applied at bpm 120, duration 1, the two-note
chart with offsets 5 and 7, and note index 1. -/
theorem modulus_channel_assignment_witness :
    (120 : ℚ) ≠ 0 ∧
    (∀ n ∈ ([⟨some 5⟩, ⟨some 7⟩] : List NoteV2), n.time.isSome) ∧
    ([⟨some 5⟩, ⟨some 7⟩] : List NoteV2)[1]? = some ⟨some 7⟩ ∧
    (extract_notes_v2 [⟨some 5⟩, ⟨some 7⟩] 120 1 =
        Except.ok (extractNotesV2Spec 120 1 [⟨some 5⟩, ⟨some 7⟩]) ∧
      (extractNotesV2Spec 120 1 [⟨some 5⟩, ⟨some 7⟩])[1]? = some (mkPulseV2 120 1 1 7) ∧
      (mkPulseV2 120 1 1 7).pumpkin = 1 % 4 ∧
      (mkPulseV2 120 1 (1 + 4) 7).pumpkin = 1 % 4 ∧
      extract_notes_v2 [⟨some 0⟩, ⟨some 1⟩, ⟨some 2⟩, ⟨some 3⟩] 120 1 =
        Except.ok [⟨0, 1, 0⟩, ⟨1 / 2, 1 / 2 + 1, 1⟩, ⟨1, 1 + 1, 2⟩,
          ⟨3 / 2, 3 / 2 + 1, 3⟩]) :=
  ⟨by norm_num, by simp, by simp,
    modulus_channel_assignment 120 1 7 [⟨some 5⟩, ⟨some 7⟩] 1 (by norm_num) (by simp) (by simp)⟩

/-! Claim C7 -/

/-- C7: with a usable bpm, the v2 extraction never fails as a whole: it
returns the pulses of exactly the well-formed notes (a record missing
"_time" is skipped after its KeyError is caught and logged), and every
well-formed note, wherever it sits among malformed ones, still contributes
its pulse to the result. -/
theorem v2_partial_extraction (bpm dur : ℚ) (notes : List NoteV2) (hb : bpm ≠ 0) :
    extract_notes_v2 notes bpm dur = Except.ok (extractNotesV2Spec bpm dur notes) ∧
    ∀ (i : ℕ) (t : ℚ), notes[i]? = some ⟨some t⟩ →
      mkPulseV2 bpm dur i t ∈ extractNotesV2Spec bpm dur notes := by
  refine ⟨extractNotesV2Aux_eq_spec bpm dur hb notes 0, ?_⟩
  intro i t hi
  simpa using extractNotesV2SpecAux_mem bpm dur notes 0 i t hi

/-- C7 witness: the theorem applied at bpm 60, duration 1, and a chart whose
first record is missing "_time" and whose second is well-formed. -/
theorem v2_partial_extraction_witness :
    (60 : ℚ) ≠ 0 ∧
    (extract_notes_v2 [⟨none⟩, ⟨some 3⟩] 60 1 =
        Except.ok (extractNotesV2Spec 60 1 [⟨none⟩, ⟨some 3⟩]) ∧
      ∀ (i : ℕ) (t : ℚ), ([⟨none⟩, ⟨some 3⟩] : List NoteV2)[i]? = some ⟨some t⟩ →
        mkPulseV2 60 1 i t ∈ extractNotesV2Spec 60 1 [⟨none⟩, ⟨some 3⟩]) :=
  ⟨by norm_num, v2_partial_extraction 60 1 [⟨none⟩, ⟨some 3⟩] (by norm_num)⟩

/-! Claim C8 -/

/-- C8 counterexample: extraction performs no sort: on a legacy chart whose
notes come with decreasing beat offsets 2 then 1 (bpm 120), the output
pulses have start times 1 then 1/2, which is not ordered by start time
ascending, against the claim that every input yields an ascending
schedule. -/
theorem extract_notes_output_not_sorted :
    extract_notes_v2 [⟨some 2⟩, ⟨some 1⟩] 120 1 =
      Except.ok [⟨1, 2, 0⟩, ⟨1 / 2, 3 / 2, 1⟩] ∧
    ¬ List.Chain' (fun p q : Pulse => p.start ≤ q.start) [⟨1, 2, 0⟩, ⟨1 / 2, 3 / 2, 1⟩] := by
  constructor
  · norm_num [extract_notes_v2, extractNotesV2Aux, mkPulseV2]
  · intro h
    have h1 := (List.chain'_cons.mp h).1
    norm_num at h1

/-- C8 (amended): extraction preserves the input note order (no sort is
applied, so equal start times trivially keep input order); consequently the
output is ordered by start time ascending exactly when the input beat
offsets are non-decreasing, which holds for both reader variants when
bpm > 0. -/
theorem extract_notes_preserves_order_sorted_input (bpm dur : ℚ) (hb : 0 < bpm)
    (notes : List NoteV2) (notes3 : List NoteV3)
    (h2 : List.Chain' (· ≤ ·) (notes.filterMap NoteV2.time))
    (hwf3 : ∀ n ∈ notes3, n.b.isSome)
    (h3 : List.Chain' (· ≤ ·) (notes3.filterMap NoteV3.b)) :
    extract_notes_v2 notes bpm dur = Except.ok (extractNotesV2Spec bpm dur notes) ∧
    List.Chain' (fun p q : Pulse => p.start ≤ q.start) (extractNotesV2Spec bpm dur notes) ∧
    extractNotesV3Aux bpm dur 0 notes3 = Except.ok (extractNotesV3SpecAux bpm dur 0 notes3) ∧
    List.Chain' (fun p q : Pulse => p.start ≤ q.start) (extractNotesV3SpecAux bpm dur 0 notes3) := by
  have hc : 0 < bpm / 60 := by positivity
  have k2 := chain_div_of_chain (bpm / 60) hc _ h2
  rw [← extractNotesV2SpecAux_map_start bpm dur notes 0, List.chain'_map] at k2
  have k3 := chain_div_of_chain (bpm / 60) hc _ h3
  rw [← extractNotesV3SpecAux_map_start bpm dur notes3 0, List.chain'_map] at k3
  exact ⟨extractNotesV2Aux_eq_spec bpm dur hb.ne' notes 0, k2,
    extractNotesV3Aux_eq_spec bpm dur hb.ne' notes3 hwf3 0, k3⟩

/-- C8 witness: the amended theorem applied at bpm 60, duration 1, a v2
chart with offsets 1, (missing), 2 and a v3 chart with offsets 0, 4. -/
theorem extract_notes_preserves_order_sorted_input_witness :
    (0 : ℚ) < 60 ∧
    List.Chain' (· ≤ ·) (([⟨some 1⟩, ⟨none⟩, ⟨some 2⟩] : List NoteV2).filterMap NoteV2.time) ∧
    (∀ n ∈ ([⟨some 0⟩, ⟨some 4⟩] : List NoteV3), n.b.isSome) ∧
    List.Chain' (· ≤ ·) (([⟨some 0⟩, ⟨some 4⟩] : List NoteV3).filterMap NoteV3.b) ∧
    (extract_notes_v2 [⟨some 1⟩, ⟨none⟩, ⟨some 2⟩] 60 1 =
        Except.ok (extractNotesV2Spec 60 1 [⟨some 1⟩, ⟨none⟩, ⟨some 2⟩]) ∧
      List.Chain' (fun p q : Pulse => p.start ≤ q.start)
        (extractNotesV2Spec 60 1 [⟨some 1⟩, ⟨none⟩, ⟨some 2⟩]) ∧
      extractNotesV3Aux 60 1 0 [⟨some 0⟩, ⟨some 4⟩] =
        Except.ok (extractNotesV3SpecAux 60 1 0 [⟨some 0⟩, ⟨some 4⟩]) ∧
      List.Chain' (fun p q : Pulse => p.start ≤ q.start)
        (extractNotesV3SpecAux 60 1 0 [⟨some 0⟩, ⟨some 4⟩])) :=
  ⟨by norm_num, by norm_num [List.filterMap_cons, List.chain'_cons], by simp,
    by norm_num [List.filterMap_cons, List.chain'_cons],
    extract_notes_preserves_order_sorted_input 60 1 (by norm_num)
      [⟨some 1⟩, ⟨none⟩, ⟨some 2⟩] [⟨some 0⟩, ⟨some 4⟩]
      (by norm_num [List.filterMap_cons, List.chain'_cons]) (by simp)
      (by norm_num [List.filterMap_cons, List.chain'_cons])⟩

end FireBeat

namespace FireBeat

/-! Claim C9 -/

/-- C9 counterexample: the hardware dispatcher (PLCController.run_schedule)
handles each pulse to completion before the next: on the two overlapping
pulses (0,2) on pumpkin 0 and (1,3) on pumpkin 1 (identity coil map,
start_time 0) the set_coil calls carry scheduled times 0, 2, 1, 3 in that
order, which is not non-decreasing: the second channel's On (due at 1) is
only issued after the first channel's Off (due at 2), so during the overlap
the two channels are never both asserted, against the claim. -/
theorem hardware_dispatch_edges_out_of_order :
    run_schedule_ops [(0, 0), (1, 1), (2, 2), (3, 3)] 0 [⟨0, 2, 0⟩, ⟨1, 3, 1⟩] =
      [⟨0, 0, true⟩, ⟨2, 0, false⟩, ⟨1, 1, true⟩, ⟨3, 1, false⟩] ∧
    ¬ List.Sorted edgeLe [⟨0, 0, true⟩, ⟨2, 0, false⟩, ⟨1, 1, true⟩, ⟨3, 1, false⟩] := by
  constructor
  · norm_num [run_schedule_ops, dictGet, List.find?]
  · intro h
    have h1 := List.rel_of_sorted_cons (List.sorted_cons.mp h).2 ⟨1, 1, true⟩ (by simp)
    norm_num [edgeLe] at h1

/-- C9 (amended): the simulated dispatcher (PygamePLCController.run_schedule)
sorts the flattened edge events by time and applies them in that order, so
its applied edge sequence is always in non-decreasing time order across all
channels; and on two overlapping pulses (0,2) on channel 0 and (1,3) on
channel 1 it has both coils asserted at clock time 3/2, inside the overlap.
The hardware dispatcher does not satisfy this (see the counterexample). -/
theorem pygame_dispatch_order_and_overlap :
    (∀ (pc : List (ℕ × ℕ)) (t0 : ℚ) (sched : List Pulse),
        List.Sorted edgeLe (pygame_run_schedule_ops pc t0 sched)) ∧
    (pygameStateAt [0, 1, 2, 3] [(0, 0), (1, 1), (2, 2), (3, 3)] 0
        [⟨0, 2, 0⟩, ⟨1, 3, 1⟩] (3 / 2) 0 = true ∧
      pygameStateAt [0, 1, 2, 3] [(0, 0), (1, 1), (2, 2), (3, 3)] 0
        [⟨0, 2, 0⟩, ⟨1, 3, 1⟩] (3 / 2) 1 = true) := by
  refine ⟨fun pc t0 sched => List.sorted_insertionSort edgeLe _, ?_, ?_⟩ <;>
    norm_num [pygameStateAt, pygame_run_schedule_ops, pygame_build_events, dictGet,
      List.find?, List.insertionSort, List.orderedInsert, edgeLe, pygameSetCoil,
      List.filter]

end FireBeat
